import Mathlib

/-!
Shallow embedding of the sender-key group cipher (`src/group_cipher.rs`) of a
Signal-protocol implementation, together with the collaborator types it uses
(chain keys, message keys, sender-key states/records, wire messages, the
symmetric cipher and signature primitives).  The collaborators are not part of
the excerpted source, so they are modelled from the specification; the four
entry points `group_encrypt`, `get_sender_key`, `group_decrypt`,
`process_sender_key_distribution_message` and
`create_sender_key_distribution_message` are translated line by line from
`group_cipher.rs`.  The persistent store is threaded explicitly: each entry
point takes the stored record (for the one `SenderKeyName` in play) and
returns the result together with the store as the call leaves it, so an early
error visibly leaves the store untouched.
-/

namespace GroupCipher

/-- Modelled from the spec: the forward-jump limit `consts::MAX_FORWARD_JUMPS`
bounding how far a message iteration may run ahead of the chain key (the
constant lives outside the excerpt; the reference implementation uses 25000). -/
def MAX_FORWARD_JUMPS : Nat := 25000

/-- Modelled from the spec: capacity of the bounded skipped-message-key cache;
insertion beyond capacity evicts the oldest entry (the constant lives outside
the excerpt; the reference implementation uses 2000). -/
def MAX_MESSAGE_KEYS : Nat := 2000

/-- Modelled from the spec: the one-way derivation taking a chain-key seed to
the next chain-key seed, abstracted as an injective tagging function. -/
def ckNextSeed (s : List Nat) : List Nat := 2 :: s

/-- Modelled from the spec: the one-way derivation taking a chain-key seed to
the seed of that iteration's message key, abstracted as injective tagging. -/
def mkSeed (s : List Nat) : List Nat := 1 :: s

/-- Modelled from the spec: a sender message key `{ iteration, seed }`; its
cipher key and IV are derived from the seed. -/
structure SenderMessageKey where
  iteration : Nat
  seed : List Nat
  deriving Repr, DecidableEq

/-- Modelled from the spec: the 32-byte cipher key derived from a message
key's seed. -/
def SenderMessageKey.cipherKey (k : SenderMessageKey) : List Nat := 3 :: k.seed

/-- Modelled from the spec: the 16-byte IV derived from a message key's
seed. -/
def SenderMessageKey.iv (k : SenderMessageKey) : List Nat := 4 :: k.seed

/-- Modelled from the spec: a sender chain key `{ iteration, seed }`. -/
structure SenderChainKey where
  iteration : Nat
  seed : List Nat
  deriving Repr, DecidableEq

/-- Modelled from the spec: `next()` produces the chain key of iteration
`iteration + 1` by one-way derivation from the current seed. -/
def SenderChainKey.next (c : SenderChainKey) : SenderChainKey :=
  { iteration := c.iteration + 1, seed := ckNextSeed c.seed }

/-- Modelled from the spec: `sender_message_key()` derives the message key of
the chain key's current iteration without advancing it. -/
def SenderChainKey.senderMessageKey (c : SenderChainKey) : SenderMessageKey :=
  { iteration := c.iteration, seed := mkSeed c.seed }

/-- Modelled from the spec: the asymmetric signature collaborator's public key
as an abstract function of the private key. -/
def privToPub (p : Nat) : Nat := p + 1

/-- Modelled from the spec: error taxonomy of the protocol (the kinds the
excerpted core raises or the spec names). -/
inductive SignalProtocolError where
  | InvalidSenderKeyId
  | NoSenderKeyState
  | SenderKeySigningKeyMissing
  | SignatureValidationFailed
  | DuplicatedMessage (expected got : Nat)
  | InvalidMessage (msg : String)
  | InvalidCiphertext
  deriving Repr, DecidableEq

/-- Modelled from the spec: ciphertext of the AES-256-CBC collaborator,
abstracted as an invertible pairing of key, IV and plaintext. -/
structure Ciphertext where
  key : List Nat
  iv : List Nat
  data : List Nat
  deriving Repr, DecidableEq

/-- Modelled from the spec: `crypto::aes_256_cbc_encrypt`. -/
def aes256CbcEncrypt (plaintext key iv : List Nat) : Ciphertext :=
  { key := key, iv := iv, data := plaintext }

/-- Modelled from the spec: `crypto::aes_256_cbc_decrypt`; decryption under a
wrong key or IV surfaces as a decryption error. -/
def aes256CbcDecrypt (c : Ciphertext) (key iv : List Nat) :
    Except SignalProtocolError (List Nat) :=
  if c.key = key ∧ c.iv = iv then Except.ok c.data
  else Except.error SignalProtocolError.InvalidCiphertext

/-- Modelled from the spec: a (possibly randomized) signature over the
serialized `(keyId, iteration, ciphertext)` tuple of a sender-key message. -/
structure Signature where
  pubKey : Nat
  keyId : Nat
  iteration : Nat
  ciphertext : Ciphertext
  rand : Nat
  deriving Repr, DecidableEq

/-- Modelled from the spec: `sign(privateKey, message)` with injected
randomness; verification needs only the public key. -/
def sign (priv rand keyId iteration : Nat) (ct : Ciphertext) : Signature :=
  { pubKey := privToPub priv, keyId := keyId, iteration := iteration,
    ciphertext := ct, rand := rand }

/-- Modelled from the spec: the `SenderKeyMessage` wire artifact
`{ keyId, iteration, ciphertext, signature }`; serialization round-trips
byte-exactly, so the serialized form is identified with the message itself. -/
structure SenderKeyMessage where
  keyId : Nat
  iteration : Nat
  ciphertext : Ciphertext
  signature : Signature
  deriving Repr, DecidableEq

/-- Modelled from the spec: `SenderKeyMessage::new` signs the serialized
`(keyId, iteration, ciphertext)` tuple with the private signing key. -/
def SenderKeyMessage.new (keyId iteration : Nat) (ct : Ciphertext)
    (rand priv : Nat) : SenderKeyMessage :=
  { keyId := keyId, iteration := iteration, ciphertext := ct,
    signature := sign priv rand keyId iteration ct }

/-- Modelled from the spec: `verify_signature` checks the signature against a
public key and the message's own `(keyId, iteration, ciphertext)` tuple. -/
def SenderKeyMessage.verifySignature (m : SenderKeyMessage) (pubKey : Nat) :
    Bool :=
  m.signature.pubKey == pubKey && m.signature.keyId == m.keyId &&
    m.signature.iteration == m.iteration &&
    m.signature.ciphertext == m.ciphertext

/-- Modelled from the spec: the `SenderKeyDistributionMessage` wire artifact
`{ id, iteration, chainSeed, signingPublicKey }`; it never carries the private
signing key. -/
structure SenderKeyDistributionMessage where
  id : Nat
  iteration : Nat
  chainKey : List Nat
  signingKey : Nat
  deriving Repr, DecidableEq

/-- Modelled from the spec: a `SenderKeyState` bundling id, chain key, the
signing key pair (private part present only on the originating device) and the
bounded ordered cache of skipped message keys. -/
structure SenderKeyState where
  senderKeyId : Nat
  senderChainKey : SenderChainKey
  signingKeyPublic : Nat
  signingKeyPrivate : Option Nat
  messageKeys : List SenderMessageKey
  deriving Repr, DecidableEq

/-- Modelled from the spec: append a message key to the bounded cache,
evicting the oldest entry when capacity is exceeded. -/
def capAppend (l : List SenderMessageKey) (k : SenderMessageKey) :
    List SenderMessageKey :=
  let grown := l ++ [k]
  if MAX_MESSAGE_KEYS < grown.length then grown.tail else grown

/-- Modelled from the spec: `add_sender_message_key` inserts into the
state's skipped-key cache. -/
def SenderKeyState.addSenderMessageKey (s : SenderKeyState)
    (k : SenderMessageKey) : SenderKeyState :=
  { s with messageKeys := capAppend s.messageKeys k }

/-- Modelled from the spec: remove the first cached key with the given
iteration from a list, returning it together with the remaining list. -/
def removeFirstKey : List SenderMessageKey → Nat →
    Option SenderMessageKey × List SenderMessageKey
  | [], _ => (none, [])
  | k :: rest, it =>
    if k.iteration = it then (some k, rest)
    else
      let p := removeFirstKey rest it
      (p.1, k :: p.2)

/-- Modelled from the spec: `remove_sender_message_key` looks a target
iteration up in the skipped-key cache, removing the entry when found
(single use). -/
def SenderKeyState.removeSenderMessageKey (s : SenderKeyState) (it : Nat) :
    Option SenderMessageKey × SenderKeyState :=
  let p := removeFirstKey s.messageKeys it
  (p.1, { s with messageKeys := p.2 })

/-- Modelled from the spec: a `SenderKeyRecord` is an ordered collection of
states, most recently added first. -/
structure SenderKeyRecord where
  states : List SenderKeyState
  deriving Repr, DecidableEq

/-- Modelled from the spec: `SenderKeyRecord::new_empty`. -/
def SenderKeyRecord.newEmpty : SenderKeyRecord := { states := [] }

/-- Modelled from the spec: `is_empty()`. -/
def SenderKeyRecord.isEmpty (r : SenderKeyRecord) : Bool := r.states.isEmpty

/-- Modelled from the spec: `sender_key_state()` returns the current (most
recently added) state, failing when the record holds none. -/
def SenderKeyRecord.senderKeyState (r : SenderKeyRecord) :
    Except SignalProtocolError SenderKeyState :=
  match r.states with
  | [] => Except.error SignalProtocolError.NoSenderKeyState
  | s :: _ => Except.ok s

/-- Modelled from the spec: `sender_key_state_for_keyid` finds the first state
matching the given id. -/
def SenderKeyRecord.stateForKeyId (r : SenderKeyRecord) (keyId : Nat) :
    Option SenderKeyState :=
  r.states.find? (fun s => s.senderKeyId == keyId)

/-- Modelled from the spec: write back a mutated state over the first state
matching the given id (the source mutates that state through a mutable
reference inside the record). -/
def replaceFirstState : List SenderKeyState → Nat → SenderKeyState →
    List SenderKeyState
  | [], _, _ => []
  | s :: rest, keyId, s₂ =>
    if s.senderKeyId = keyId then s₂ :: rest
    else s :: replaceFirstState rest keyId s₂

/-- Modelled from the spec: `add_sender_key_state` prepends a new state with
an empty skipped-key cache, which becomes current. -/
def SenderKeyRecord.addSenderKeyState (r : SenderKeyRecord)
    (id iteration : Nat) (seed : List Nat) (pubKey : Nat)
    (privKey : Option Nat) : SenderKeyRecord :=
  { states := { senderKeyId := id,
                senderChainKey := { iteration := iteration, seed := seed },
                signingKeyPublic := pubKey, signingKeyPrivate := privKey,
                messageKeys := [] } :: r.states }

/-- Modelled from the spec: `set_sender_key_state` replaces the record's
contents with the single given state (used on first bootstrap). -/
def SenderKeyRecord.setSenderKeyState (r : SenderKeyRecord)
    (id iteration : Nat) (seed : List Nat) (pubKey : Nat)
    (privKey : Option Nat) : SenderKeyRecord :=
  let _ := r
  { states := [{ senderKeyId := id,
                 senderChainKey := { iteration := iteration, seed := seed },
                 signingKeyPublic := pubKey, signingKeyPrivate := privKey,
                 messageKeys := [] }] }

/-- Modelled from the spec: the store's content for the one `SenderKeyName`
in play; `none` is an absent record. -/
abbrev Store : Type := Option SenderKeyRecord

/-- Modelled from the spec: the injected cryptographically secure random
source, reduced to the three draws the core makes (a `u32` for the state id,
a 32-byte chain seed, and the signing key pair's private scalar). -/
structure Csprng where
  idRand : Nat
  seedRand : List Nat
  keyRand : Nat
  deriving Repr, DecidableEq

/-- Translated from `group_encrypt` in `src/group_cipher.rs`: load the record
(failing with `InvalidSenderKeyId` when absent), take the current state,
derive the message key at the current chain-key iteration, encrypt, require a
private signing key, build the signed `SenderKeyMessage`, advance the chain
key by one, persist, and return the message.  The returned store is the store
as the call leaves it (unchanged on every error path, since the source only
writes on the success path). -/
def group_encrypt (store : Store) (plaintext : List Nat) (rand : Nat) :
    Except SignalProtocolError SenderKeyMessage × Store :=
  match store with
  | none => (Except.error SignalProtocolError.InvalidSenderKeyId, store)
  | some record =>
    match record.states with
    | [] => (Except.error SignalProtocolError.NoSenderKeyState, store)
    | st :: rest =>
      let senderKey := st.senderChainKey.senderMessageKey
      let ciphertext :=
        aes256CbcEncrypt plaintext senderKey.cipherKey senderKey.iv
      match st.signingKeyPrivate with
      | none =>
        (Except.error SignalProtocolError.SenderKeySigningKeyMissing, store)
      | some signingKey =>
        let skm := SenderKeyMessage.new st.senderKeyId senderKey.iteration
          ciphertext rand signingKey
        let st₂ := { st with senderChainKey := st.senderChainKey.next }
        (Except.ok skm, some { states := st₂ :: rest })

/-- Translated from the while loop of `get_sender_key` in
`src/group_cipher.rs`: while the chain key's iteration is below the target,
cache the chain key's message key in the state and step the chain key. -/
def chainWalk (state : SenderKeyState) (sck : SenderChainKey)
    (iteration : Nat) : SenderKeyState × SenderChainKey :=
  if sck.iteration < iteration then
    chainWalk (state.addSenderMessageKey sck.senderMessageKey) sck.next
      iteration
  else (state, sck)
termination_by iteration - sck.iteration
decreasing_by
  simp [SenderChainKey.next]
  omega

/-- Translated from `get_sender_key` in `src/group_cipher.rs`: resolve the
message key for a target iteration against a state, mutating the state (cache
consumption, chain-key advancement); returns the key with the updated
state. -/
def get_sender_key (state : SenderKeyState) (iteration : Nat) :
    Except SignalProtocolError (SenderMessageKey × SenderKeyState) :=
  let sck := state.senderChainKey
  if sck.iteration > iteration then
    match state.removeSenderMessageKey iteration with
    | (some smk, state₂) => Except.ok (smk, state₂)
    | (none, _) =>
      Except.error
        (SignalProtocolError.DuplicatedMessage sck.iteration iteration)
  else
    let jump := iteration - sck.iteration
    if jump > MAX_FORWARD_JUMPS then
      Except.error
        (SignalProtocolError.InvalidMessage
          "message from too far into the future")
    else
      let w := chainWalk state sck iteration
      Except.ok (w.2.senderMessageKey,
        { w.1 with senderChainKey := w.2.next })

/-- Modelled on Rust `u32` subtraction, which panics on underflow: `none` is
the panic. -/
def u32Sub (a b : Nat) : Option Nat := if b ≤ a then some (a - b) else none

/-- Translated from `get_sender_key` in `src/group_cipher.rs` with the
subtraction `iteration - sender_chain_key.iteration()` given its exact `u32`
semantics: the whole call evaluates to `none` exactly when that subtraction
would underflow (a panic in the source). -/
def get_sender_key_checked (state : SenderKeyState) (iteration : Nat) :
    Option (Except SignalProtocolError (SenderMessageKey × SenderKeyState)) :=
  let sck := state.senderChainKey
  if sck.iteration > iteration then
    some (match state.removeSenderMessageKey iteration with
      | (some smk, state₂) => Except.ok (smk, state₂)
      | (none, _) =>
        Except.error
          (SignalProtocolError.DuplicatedMessage sck.iteration iteration))
  else
    match u32Sub iteration sck.iteration with
    | none => none
    | some jump =>
      if jump > MAX_FORWARD_JUMPS then
        some (Except.error
          (SignalProtocolError.InvalidMessage
            "message from too far into the future"))
      else
        let w := chainWalk state sck iteration
        some (Except.ok (w.2.senderMessageKey,
          { w.1 with senderChainKey := w.2.next }))

/-- Translated from `group_decrypt` in `src/group_cipher.rs`: load the record
(failing with `InvalidSenderKeyId` when absent), locate the state matching
the message's key id, verify the signature against that state's public key,
resolve the message key via `get_sender_key`, decrypt, persist the mutated
record, and return the plaintext.  The serialized input is identified with
the parsed message (the wire encoding round-trips byte-exactly); the returned
store is the store as the call leaves it. -/
def group_decrypt (skm : SenderKeyMessage) (store : Store) :
    Except SignalProtocolError (List Nat) × Store :=
  match store with
  | none => (Except.error SignalProtocolError.InvalidSenderKeyId, store)
  | some record =>
    match record.stateForKeyId skm.keyId with
    | none => (Except.error SignalProtocolError.InvalidSenderKeyId, store)
    | some st =>
      if skm.verifySignature st.signingKeyPublic = false then
        (Except.error SignalProtocolError.SignatureValidationFailed, store)
      else
        match get_sender_key st skm.iteration with
        | Except.error e => (Except.error e, store)
        | Except.ok (senderKey, st₂) =>
          match aes256CbcDecrypt skm.ciphertext senderKey.cipherKey
              senderKey.iv with
          | Except.error e => (Except.error e, store)
          | Except.ok plaintext =>
            (Except.ok plaintext,
              some { states := replaceFirstState record.states skm.keyId st₂ })

/-- Translated from `process_sender_key_distribution_message` in
`src/group_cipher.rs`: load the record (or a fresh empty one), add a state
from the message's id, iteration, seed and public signing key with no private
key, and persist. -/
def process_sender_key_distribution_message
    (skdm : SenderKeyDistributionMessage) (store : Store) :
    Except SignalProtocolError Unit × Store :=
  let record := store.getD SenderKeyRecord.newEmpty
  let record₂ := record.addSenderKeyState skdm.id skdm.iteration skdm.chainKey
    skdm.signingKey none
  (Except.ok (), some record₂)

/-- Translated from `create_sender_key_distribution_message` in
`src/group_cipher.rs`: load the record (or a fresh empty one); when it is
empty, generate a 31-bit id (`gen u32 >> 1`), a fresh chain seed and signing
key pair, set a state at iteration 0 holding the private key, and persist;
in every case re-read the current state and emit a distribution message with
its id, current chain-key iteration and seed, and public signing key. -/
def create_sender_key_distribution_message (store : Store) (rng : Csprng) :
    Except SignalProtocolError SenderKeyDistributionMessage × Store :=
  let record := store.getD SenderKeyRecord.newEmpty
  let seeded :=
    if record.isEmpty then
      let senderKeyId := (rng.idRand % 2 ^ 32) / 2
      let iteration := 0
      let senderKey := rng.seedRand
      let privKey := rng.keyRand
      (record.setSenderKeyState senderKeyId iteration senderKey
        (privToPub privKey) (some privKey), true)
    else (record, false)
  let record₂ := seeded.1
  let store₂ : Store := if seeded.2 then some record₂ else store
  match record₂.senderKeyState with
  | Except.error e => (Except.error e, store₂)
  | Except.ok state =>
    let sck := state.senderChainKey
    (Except.ok { id := state.senderKeyId, iteration := sck.iteration,
                 chainKey := sck.seed, signingKey := state.signingKeyPublic },
      store₂)

/-- Iterating `next` on a chain key, for stating what the forward walk
produces. -/
def chainKeyIterate (c : SenderChainKey) : Nat → SenderChainKey
  | 0 => c
  | n + 1 => chainKeyIterate c.next n

/-- The message keys of the `n` iterations starting at a chain key: exactly
the keys the forward walk caches when it walks `n` steps. -/
def skippedKeys (c : SenderChainKey) (n : Nat) : List SenderMessageKey :=
  (List.range n).map (fun k => (chainKeyIterate c k).senderMessageKey)

lemma chainKeyIterate_iteration (c : SenderChainKey) (n : Nat) :
    (chainKeyIterate c n).iteration = c.iteration + n := by
  induction n generalizing c with
  | zero => rfl
  | succ n ih =>
    show (chainKeyIterate c.next n).iteration = c.iteration + (n + 1)
    rw [ih]
    simp [SenderChainKey.next]
    omega

lemma chainWalk_stop (state : SenderKeyState) (sck : SenderChainKey)
    (it : Nat) (h : ¬ sck.iteration < it) :
    chainWalk state sck it = (state, sck) := by
  rw [chainWalk]
  simp [h]

lemma chainWalk_step (state : SenderKeyState) (sck : SenderChainKey)
    (it : Nat) (h : sck.iteration < it) :
    chainWalk state sck it =
      chainWalk (state.addSenderMessageKey sck.senderMessageKey) sck.next
        it := by
  rw [chainWalk]
  simp [h]

lemma chainWalk_spec (n : Nat) (state : SenderKeyState)
    (sck : SenderChainKey) (it : Nat) (h : sck.iteration + n = it) :
    chainWalk state sck it =
      (List.foldl SenderKeyState.addSenderMessageKey state (skippedKeys sck n),
        chainKeyIterate sck n) := by
  induction n generalizing state sck with
  | zero =>
    rw [chainWalk_stop state sck it (by omega)]
    simp [skippedKeys, chainKeyIterate]
  | succ n ih =>
    rw [chainWalk_step state sck it (by omega)]
    rw [ih (state.addSenderMessageKey sck.senderMessageKey) sck.next
      (by simp [SenderChainKey.next]; omega)]
    have hkeys : skippedKeys sck (n + 1) =
        sck.senderMessageKey ::
          skippedKeys sck.next n := by
      simp only [skippedKeys, List.range_succ_eq_map, List.map_cons,
        List.map_map]
      rfl
    rw [hkeys]
    rfl

lemma foldl_addSenderMessageKey (state : SenderKeyState)
    (ks : List SenderMessageKey) :
    List.foldl SenderKeyState.addSenderMessageKey state ks =
      { state with messageKeys := List.foldl capAppend state.messageKeys ks } := by
  induction ks generalizing state with
  | nil => rfl
  | cons k ks ih =>
    rw [List.foldl_cons, ih]
    rfl

lemma foldl_capAppend_drop (ks l : List SenderMessageKey)
    (h : l.length ≤ MAX_MESSAGE_KEYS) :
    List.foldl capAppend l ks =
      (l ++ ks).drop ((l ++ ks).length - MAX_MESSAGE_KEYS) := by
  induction ks generalizing l with
  | nil =>
    simp [Nat.sub_eq_zero_of_le h]
  | cons k ks ih =>
    rw [List.foldl_cons]
    by_cases hc : MAX_MESSAGE_KEYS < l.length + 1
    · have hl : l.length = MAX_MESSAGE_KEYS := by omega
      have hone : (1 : Nat) ≤ (l ++ [k]).length := by simp
      have hcap : capAppend l k = (l ++ [k]).drop 1 := by
        simp [capAppend, hc, List.drop_one]
      rw [hcap, ih ((l ++ [k]).drop 1) (by simp [hl])]
      have hamount : (((l ++ [k]).drop 1) ++ ks).length - MAX_MESSAGE_KEYS =
          ks.length := by
        simp only [List.length_append, List.length_drop, List.length_cons,
          List.length_nil, hl]
        omega
      have hamount₂ : (l ++ k :: ks).length - MAX_MESSAGE_KEYS =
          ks.length + 1 := by
        simp only [List.length_append, List.length_cons, List.length_nil, hl]
        omega
      rw [hamount, hamount₂, ← List.drop_append_of_le_length hone,
        List.drop_drop]
      have hx : (l ++ [k]) ++ ks = l ++ k :: ks := by simp
      rw [hx, Nat.add_comm 1 ks.length]
    · have hcap : capAppend l k = l ++ [k] := by
        simp [capAppend, hc]
      rw [hcap, ih (l ++ [k]) (by simp; omega)]
      have hx : (l ++ [k]) ++ ks = l ++ k :: ks := by simp
      rw [hx]

lemma removeFirstKey_none (l : List SenderMessageKey) (it : Nat)
    (h : ∀ k ∈ l, k.iteration ≠ it) : removeFirstKey l it = (none, l) := by
  induction l with
  | nil => rfl
  | cons k rest ih =>
    have hk : k.iteration ≠ it := h k (List.mem_cons_self k rest)
    have hrest := ih (fun x hx => h x (List.mem_cons_of_mem k hx))
    simp [removeFirstKey, hk, hrest]

lemma removeFirstKey_some (l : List SenderMessageKey) (it : Nat)
    (k : SenderMessageKey) (rest : List SenderMessageKey)
    (h : removeFirstKey l it = (some k, rest)) :
    k.iteration = it ∧
      rest.countP (fun x => x.iteration == it) + 1 =
        l.countP (fun x => x.iteration == it) := by
  induction l generalizing rest with
  | nil => simp [removeFirstKey] at h
  | cons a as ih =>
    by_cases ha : a.iteration = it
    · rw [removeFirstKey, if_pos ha] at h
      obtain ⟨h₁, h₂⟩ := Prod.mk.injEq .. ▸ h
      obtain rfl := Option.some.injEq .. ▸ h₁
      subst h₂
      refine ⟨ha, ?_⟩
      simp [List.countP_cons, ha]
    · rw [removeFirstKey, if_neg ha] at h
      obtain ⟨h₁, h₂⟩ := Prod.mk.injEq .. ▸ h
      have hp : removeFirstKey as it =
          (some k, (removeFirstKey as it).2) := by
        rw [← h₁]
      obtain ⟨hk, hcount⟩ := ih (removeFirstKey as it).2 hp
      subst h₂
      refine ⟨hk, ?_⟩
      simp only [List.countP_cons, ha]
      simp [ha]
      omega

/-- C10: the `u32` subtraction `iteration - sender_chain_key.iteration()` in
`get_sender_key` never underflows, because the branch handling
`iteration < chain iteration` has already returned by the time it runs: the
panic-aware embedding of the function agrees everywhere with the total one,
so the function is total (returns `Ok` or a domain error) and never panics on
that subtraction. -/
theorem get_sender_key_no_underflow (state : SenderKeyState)
    (iteration : Nat) :
    get_sender_key_checked state iteration =
      some (get_sender_key state iteration) := by
  by_cases h : state.senderChainKey.iteration > iteration
  · simp [get_sender_key_checked, get_sender_key, h]
  · have hle : state.senderChainKey.iteration ≤ iteration :=
      Nat.le_of_not_lt h
    by_cases hj :
      iteration - state.senderChainKey.iteration > MAX_FORWARD_JUMPS
    · simp [get_sender_key_checked, get_sender_key, h, u32Sub, hle, hj]
    · simp [get_sender_key_checked, get_sender_key, h, u32Sub, hle, hj]

/-- C2: for a state whose chain key is at iteration `cur` and a target with
`cur ≤ target` and `target - cur ≤ MAX_FORWARD_JUMPS`, `get_sender_key`
returns the message key derived for iteration `target`, inserts into the
skipped-key cache the message key of every iteration in `[cur, target)` and
no other (the cache retains them up to its bounded-capacity eviction of the
oldest entries), and leaves the state's chain key at iteration `target + 1`;
in particular for `target = cur` nothing is cached and the chain key
advances by one. -/
theorem get_sender_key_forward (state : SenderKeyState) (target : Nat)
    (hcur : state.senderChainKey.iteration ≤ target)
    (hjump : target - state.senderChainKey.iteration ≤ MAX_FORWARD_JUMPS)
    (hcap : state.messageKeys.length ≤ MAX_MESSAGE_KEYS) :
    get_sender_key state target =
      Except.ok
        ((chainKeyIterate state.senderChainKey
            (target - state.senderChainKey.iteration)).senderMessageKey,
          { state with
            senderChainKey :=
              (chainKeyIterate state.senderChainKey
                (target - state.senderChainKey.iteration)).next,
            messageKeys :=
              (state.messageKeys ++
                  skippedKeys state.senderChainKey
                    (target - state.senderChainKey.iteration)).drop
                ((state.messageKeys ++
                    skippedKeys state.senderChainKey
                      (target - state.senderChainKey.iteration)).length -
                  MAX_MESSAGE_KEYS) }) ∧
    (chainKeyIterate state.senderChainKey
        (target - state.senderChainKey.iteration)).senderMessageKey.iteration
      = target ∧
    (chainKeyIterate state.senderChainKey
        (target - state.senderChainKey.iteration)).next.iteration =
      target + 1 ∧
    (skippedKeys state.senderChainKey
        (target - state.senderChainKey.iteration)).map
      SenderMessageKey.iteration =
      List.range' state.senderChainKey.iteration
        (target - state.senderChainKey.iteration) := by
  have hn : state.senderChainKey.iteration +
      (target - state.senderChainKey.iteration) = target := by omega
  refine ⟨?_, ?_, ?_, ?_⟩
  · simp only [get_sender_key]
    rw [if_neg (by omega), if_neg (by omega),
      chainWalk_spec (target - state.senderChainKey.iteration) state
        state.senderChainKey target hn,
      foldl_addSenderMessageKey,
      foldl_capAppend_drop _ _ hcap]
  · simp [SenderChainKey.senderMessageKey, chainKeyIterate_iteration]
    omega
  · simp [SenderChainKey.next, chainKeyIterate_iteration]
    omega
  · simp only [skippedKeys, List.map_map]
    rw [List.range'_eq_map_range]
    apply List.map_congr_left
    intro k hk
    simp [SenderChainKey.senderMessageKey, chainKeyIterate_iteration]

/-- C3: for a target iteration strictly below the state's chain-key
iteration, `get_sender_key` resolves from the skipped-key cache: when an
entry for the target is stored it is removed and returned (so, the cache
holding at most one entry for that iteration, a second resolution of the
same target fails with `DuplicatedMessage`), and when no entry is stored it
fails with `DuplicatedMessage` carrying the chain-key iteration and the
target. -/
theorem get_sender_key_backward (state : SenderKeyState) (target : Nat)
    (hlt : target < state.senderChainKey.iteration)
    (hdup : state.messageKeys.countP (fun x => x.iteration == target) ≤ 1) :
    (∀ smk state₂,
        state.removeSenderMessageKey target = (some smk, state₂) →
        get_sender_key state target = Except.ok (smk, state₂) ∧
          get_sender_key state₂ target =
            Except.error
              (SignalProtocolError.DuplicatedMessage
                state.senderChainKey.iteration target)) ∧
    ((state.removeSenderMessageKey target).1 = none →
        get_sender_key state target =
          Except.error
            (SignalProtocolError.DuplicatedMessage
              state.senderChainKey.iteration target)) := by
  constructor
  · intro smk state₂ h
    have hfst : (removeFirstKey state.messageKeys target).1 = some smk := by
      have := congrArg Prod.fst h
      simpa [SenderKeyState.removeSenderMessageKey] using this
    have hsnd : state₂ =
        { state with messageKeys := (removeFirstKey state.messageKeys target).2 } := by
      have := congrArg Prod.snd h
      simpa [SenderKeyState.removeSenderMessageKey] using this.symm
    have hremove : removeFirstKey state.messageKeys target =
        (some smk, (removeFirstKey state.messageKeys target).2) := by
      rw [← hfst]
    obtain ⟨hit, hcount⟩ := removeFirstKey_some _ _ _ _ hremove
    constructor
    · simp only [get_sender_key, SenderKeyState.removeSenderMessageKey]
      rw [if_pos hlt]
      rw [hremove, hsnd]
    · have hnone : removeFirstKey
          (removeFirstKey state.messageKeys target).2 target =
          (none, (removeFirstKey state.messageKeys target).2) := by
        apply removeFirstKey_none
        intro x hx hxit
        have hzero :
            ((removeFirstKey state.messageKeys target).2).countP
              (fun x => x.iteration == target) = 0 := by omega
        have := (List.countP_eq_zero.mp hzero) x hx
        simp [hxit] at this
      subst hsnd
      simp only [get_sender_key, SenderKeyState.removeSenderMessageKey]
      rw [if_pos hlt]
      rw [hnone]
  · intro h
    have hnone : removeFirstKey state.messageKeys target =
        (none, (removeFirstKey state.messageKeys target).2) := by
      have : (removeFirstKey state.messageKeys target).1 = none := by
        have := congrArg Prod.fst
          (rfl : state.removeSenderMessageKey target =
            state.removeSenderMessageKey target)
        simpa [SenderKeyState.removeSenderMessageKey] using h
      rw [← this]
    simp only [get_sender_key, SenderKeyState.removeSenderMessageKey]
    rw [if_pos hlt]
    rw [hnone]

lemma get_sender_key_at_current (state : SenderKeyState) :
    get_sender_key state state.senderChainKey.iteration =
      Except.ok (state.senderChainKey.senderMessageKey,
        { state with senderChainKey := state.senderChainKey.next }) := by
  simp only [get_sender_key]
  rw [if_neg (lt_irrefl _), if_neg (by omega),
    chainWalk_stop _ _ _ (lt_irrefl _)]

/-- C4: a message whose iteration exceeds the matched state's current
chain-key iteration by more than `MAX_FORWARD_JUMPS` makes `group_decrypt`
fail with the `InvalidMessage` future-message error, and the stored record is
not written (the store component is returned unchanged), so the stored
chain-key iteration is unchanged. -/
theorem group_decrypt_too_far_in_future (record : SenderKeyRecord)
    (skm : SenderKeyMessage) (st : SenderKeyState)
    (hfind : record.stateForKeyId skm.keyId = some st)
    (hsig : skm.verifySignature st.signingKeyPublic = true)
    (hfar : st.senderChainKey.iteration + MAX_FORWARD_JUMPS < skm.iteration) :
    group_decrypt skm (some record) =
      (Except.error
        (SignalProtocolError.InvalidMessage
          "message from too far into the future"), some record) := by
  have hgsk : get_sender_key st skm.iteration =
      Except.error
        (SignalProtocolError.InvalidMessage
          "message from too far into the future") := by
    simp only [get_sender_key]
    rw [if_neg (by omega), if_pos (by omega)]
  simp only [group_decrypt]
  rw [hfind]
  simp [hsig, hgsk]

/-- C5: when the input message's signature does not verify against the
matched state's public signing key, `group_decrypt` returns
`SignatureValidationFailed` and the store is returned unchanged: the failure
happens before any chain-key advancement or skipped-key-cache mutation and
nothing is persisted. -/
theorem group_decrypt_signature_validation_failed (record : SenderKeyRecord)
    (skm : SenderKeyMessage) (st : SenderKeyState)
    (hfind : record.stateForKeyId skm.keyId = some st)
    (hsig : skm.verifySignature st.signingKeyPublic = false) :
    group_decrypt skm (some record) =
      (Except.error SignalProtocolError.SignatureValidationFailed,
        some record) := by
  simp only [group_decrypt]
  rw [hfind]
  simp [hsig]

/-- C6: a successful `group_encrypt` derives the message key at the current
state's current chain-key iteration (no look-ahead), embeds that iteration in
the produced `SenderKeyMessage`, and advances the state's chain key by
exactly one step in the record it persists (all other fields and states are
untouched). -/
theorem group_encrypt_advances_chain_by_one (st : SenderKeyState)
    (rest : List SenderKeyState) (plaintext : List Nat) (rand priv : Nat)
    (hpriv : st.signingKeyPrivate = some priv) :
    group_encrypt (some { states := st :: rest }) plaintext rand =
      (Except.ok
        (SenderKeyMessage.new st.senderKeyId
          st.senderChainKey.senderMessageKey.iteration
          (aes256CbcEncrypt plaintext
            st.senderChainKey.senderMessageKey.cipherKey
            st.senderChainKey.senderMessageKey.iv) rand priv),
        some { states :=
          { st with senderChainKey := st.senderChainKey.next } :: rest }) ∧
    (SenderKeyMessage.new st.senderKeyId
        st.senderChainKey.senderMessageKey.iteration
        (aes256CbcEncrypt plaintext
          st.senderChainKey.senderMessageKey.cipherKey
          st.senderChainKey.senderMessageKey.iv) rand priv).iteration =
      st.senderChainKey.iteration ∧
    st.senderChainKey.senderMessageKey.iteration =
      st.senderChainKey.iteration ∧
    st.senderChainKey.next.iteration = st.senderChainKey.iteration + 1 := by
  refine ⟨?_, rfl, rfl, rfl⟩
  simp only [group_encrypt, hpriv]

/-- C7: when the record's current state holds no private signing key (as for
a state obtained only from a distribution message), `group_encrypt` fails
with the signing-key-missing error and the store is returned unchanged. -/
theorem group_encrypt_signing_key_missing (st : SenderKeyState)
    (rest : List SenderKeyState) (plaintext : List Nat) (rand : Nat)
    (hpriv : st.signingKeyPrivate = none) :
    group_encrypt (some { states := st :: rest }) plaintext rand =
      (Except.error SignalProtocolError.SenderKeySigningKeyMissing,
        some { states := st :: rest }) := by
  simp only [group_encrypt, hpriv]

/-- C1: encrypting any plaintext (including the empty one) against a record
whose current state holds a private signing key (with the matching public
key), and then decrypting the produced `SenderKeyMessage` against the same
record state, returns the original plaintext. -/
theorem group_encrypt_decrypt_round_trip (st : SenderKeyState)
    (rest : List SenderKeyState) (plaintext : List Nat) (rand priv : Nat)
    (msg : SenderKeyMessage) (store₂ : Store)
    (hpriv : st.signingKeyPrivate = some priv)
    (hpub : st.signingKeyPublic = privToPub priv)
    (henc : group_encrypt (some { states := st :: rest }) plaintext rand =
      (Except.ok msg, store₂)) :
    (group_decrypt msg (some { states := st :: rest })).1 =
      Except.ok plaintext := by
  have henc₂ : group_encrypt (some { states := st :: rest })
      plaintext rand =
      (Except.ok
        (SenderKeyMessage.new st.senderKeyId
          st.senderChainKey.senderMessageKey.iteration
          (aes256CbcEncrypt plaintext
            st.senderChainKey.senderMessageKey.cipherKey
            st.senderChainKey.senderMessageKey.iv) rand priv),
        some { states :=
          { st with senderChainKey := st.senderChainKey.next } :: rest }) := by
    simp only [group_encrypt, hpriv]
  rw [henc₂, Prod.ext_iff] at henc
  obtain ⟨hmsg, -⟩ := henc
  injection hmsg with hmsg
  subst hmsg
  have hfind : (SenderKeyRecord.mk (st :: rest)).stateForKeyId
      (SenderKeyMessage.new st.senderKeyId
        st.senderChainKey.senderMessageKey.iteration
        (aes256CbcEncrypt plaintext
          st.senderChainKey.senderMessageKey.cipherKey
          st.senderChainKey.senderMessageKey.iv) rand priv).keyId =
      some st := by
    simp [SenderKeyRecord.stateForKeyId, SenderKeyMessage.new,
      List.find?_cons]
  have hver : (SenderKeyMessage.new st.senderKeyId
      st.senderChainKey.senderMessageKey.iteration
      (aes256CbcEncrypt plaintext
        st.senderChainKey.senderMessageKey.cipherKey
        st.senderChainKey.senderMessageKey.iv) rand priv).verifySignature
      st.signingKeyPublic = true := by
    simp [SenderKeyMessage.new, SenderKeyMessage.verifySignature, sign, hpub]
  simp only [group_decrypt]
  rw [hfind]
  simp only [hver]
  have hit : (SenderKeyMessage.new st.senderKeyId
      st.senderChainKey.senderMessageKey.iteration
      (aes256CbcEncrypt plaintext
        st.senderChainKey.senderMessageKey.cipherKey
        st.senderChainKey.senderMessageKey.iv) rand priv).iteration =
      st.senderChainKey.iteration := rfl
  rw [hit, get_sender_key_at_current]
  simp [aes256CbcDecrypt, aes256CbcEncrypt, SenderKeyMessage.new]

/-- C9: on a fresh record, processing the distribution message produced by
`create_sender_key_distribution_message` for the same name yields a record
whose current state's id, chain-key iteration, seed and public signing key
equal those emitted in the message, and whose private signing key is
absent. -/
theorem process_create_round_trip (rng : Csprng) :
    ∃ skdm st store₁,
      create_sender_key_distribution_message none rng =
        (Except.ok skdm, store₁) ∧
      process_sender_key_distribution_message skdm none =
        (Except.ok (), some { states := [st] }) ∧
      st.senderKeyId = skdm.id ∧
      st.senderChainKey.iteration = skdm.iteration ∧
      st.senderChainKey.seed = skdm.chainKey ∧
      st.signingKeyPublic = skdm.signingKey ∧
      st.signingKeyPrivate = none := by
  exact ⟨_, _, _, rfl, rfl, rfl, rfl, rfl, rfl, rfl⟩

/-- C8 counterexample: a `u32` draw of 0 from the random source makes
`create_sender_key_distribution_message` generate the identifier 0
(`0 >> 1 = 0`) for the fresh state and emit it, and 0 is not positive, so the
claim's freshly generated "31-bit positive identifier" fails as stated (the
identifier is only guaranteed non-negative and below `2 ^ 31`). -/
theorem create_distribution_id_zero :
    create_sender_key_distribution_message none
        { idRand := 0, seedRand := [5], keyRand := 7 } =
      (Except.ok { id := 0, iteration := 0, chainKey := [5],
                   signingKey := privToPub 7 },
        some { states := [{ senderKeyId := 0,
                            senderChainKey := { iteration := 0, seed := [5] },
                            signingKeyPublic := privToPub 7,
                            signingKeyPrivate := some 7,
                            messageKeys := [] }] }) ∧
    ¬ (0 : Nat) < 0 := by
  exact ⟨rfl, by decide⟩

/-- C8 (amended): when the record is absent or empty,
`create_sender_key_distribution_message` generates a fresh 31-bit
non-negative identifier (strictly below `2 ^ 31`), a fresh chain seed and
signing key pair from the random source, stores a single new state at
iteration 0 holding the private key; and in every case (fresh or
pre-existing record) it emits a `SenderKeyDistributionMessage` carrying the
current state's id, its chain key's current iteration and seed, and the
public signing key only. -/
theorem create_distribution_spec (store : Store) (rng : Csprng) :
    (∀ record st rest, store = some record → record.states = st :: rest →
      create_sender_key_distribution_message store rng =
        (Except.ok { id := st.senderKeyId,
                     iteration := st.senderChainKey.iteration,
                     chainKey := st.senderChainKey.seed,
                     signingKey := st.signingKeyPublic }, store)) ∧
    ((store = none ∨ store = some { states := [] }) →
      rng.idRand % 2 ^ 32 / 2 < 2 ^ 31 ∧
      create_sender_key_distribution_message store rng =
        (Except.ok { id := rng.idRand % 2 ^ 32 / 2, iteration := 0,
                     chainKey := rng.seedRand,
                     signingKey := privToPub rng.keyRand },
          some { states := [{ senderKeyId := rng.idRand % 2 ^ 32 / 2,
                              senderChainKey := { iteration := 0,
                                                  seed := rng.seedRand },
                              signingKeyPublic := privToPub rng.keyRand,
                              signingKeyPrivate := some rng.keyRand,
                              messageKeys := [] }] })) := by
  constructor
  · intro record st rest hstore hstates
    subst hstore
    obtain ⟨states⟩ := record
    simp only at hstates
    subst hstates
    rfl
  · intro h
    have hid : rng.idRand % 2 ^ 32 / 2 < 2 ^ 31 := by omega
    rcases h with h | h <;> subst h <;> exact ⟨hid, rfl⟩

/-- Witness for C2: a state with chain key at iteration 0 and an empty cache,
resolved at target iteration 2: the key for iteration 2 is returned, the keys
for iterations 0 and 1 are cached, and the chain key ends at iteration 3. -/
theorem get_sender_key_forward_witness :
    ((⟨1, ⟨0, [0]⟩, 9, none, []⟩ :
        SenderKeyState).senderChainKey.iteration ≤ 2 ∧
      2 - (⟨1, ⟨0, [0]⟩, 9, none, []⟩ :
        SenderKeyState).senderChainKey.iteration ≤ MAX_FORWARD_JUMPS ∧
      (⟨1, ⟨0, [0]⟩, 9, none, []⟩ :
        SenderKeyState).messageKeys.length ≤ MAX_MESSAGE_KEYS) ∧
    get_sender_key ⟨1, ⟨0, [0]⟩, 9, none, []⟩ 2 =
      Except.ok (⟨2, [1, 2, 2, 0]⟩,
        ⟨1, ⟨3, [2, 2, 2, 0]⟩, 9, none, [⟨0, [1, 0]⟩, ⟨1, [1, 2, 0]⟩]⟩) ∧
    (chainKeyIterate ⟨0, [0]⟩ 2).senderMessageKey.iteration = 2 ∧
    (chainKeyIterate ⟨0, [0]⟩ 2).next.iteration = 3 ∧
    (skippedKeys ⟨0, [0]⟩ 2).map SenderMessageKey.iteration = [0, 1] := by
  have h := get_sender_key_forward ⟨1, ⟨0, [0]⟩, 9, none, []⟩ 2
    (by decide) (by decide) (by decide)
  exact ⟨⟨by decide, by decide, by decide⟩, h.1, h.2.1, h.2.2.1, h.2.2.2⟩

/-- Witness for C3: a state with chain key at iteration 5 whose cache holds
the key for iteration 2: resolving 2 removes and returns it, resolving 2
again on the result fails with `DuplicatedMessage 5 2`. -/
theorem get_sender_key_backward_witness :
    ((2 : Nat) <
        (⟨1, ⟨5, [0]⟩, 9, none, [⟨2, [7]⟩]⟩ :
          SenderKeyState).senderChainKey.iteration ∧
      (⟨1, ⟨5, [0]⟩, 9, none, [⟨2, [7]⟩]⟩ :
        SenderKeyState).messageKeys.countP (fun x => x.iteration == 2) ≤ 1 ∧
      (⟨1, ⟨5, [0]⟩, 9, none, [⟨2, [7]⟩]⟩ :
          SenderKeyState).removeSenderMessageKey 2 =
        (some ⟨2, [7]⟩, ⟨1, ⟨5, [0]⟩, 9, none, []⟩)) ∧
    get_sender_key ⟨1, ⟨5, [0]⟩, 9, none, [⟨2, [7]⟩]⟩ 2 =
      Except.ok (⟨2, [7]⟩, ⟨1, ⟨5, [0]⟩, 9, none, []⟩) ∧
    get_sender_key ⟨1, ⟨5, [0]⟩, 9, none, []⟩ 2 =
      Except.error (SignalProtocolError.DuplicatedMessage 5 2) := by
  have h := get_sender_key_backward ⟨1, ⟨5, [0]⟩, 9, none, [⟨2, [7]⟩]⟩ 2
    (by decide) (by decide)
  have h₂ := h.1 ⟨2, [7]⟩ ⟨1, ⟨5, [0]⟩, 9, none, []⟩ (by decide)
  exact ⟨⟨by decide, by decide, by decide⟩, h₂.1, h₂.2⟩

/-- Witness for C4: a signed message at iteration 25001 against a state whose
chain key is at iteration 0 (`MAX_FORWARD_JUMPS = 25000`): decryption fails
with the future-message error and the store is unchanged. -/
theorem group_decrypt_too_far_in_future_witness :
    ((⟨[⟨1, ⟨0, [0]⟩, privToPub 3, none, []⟩]⟩ :
        SenderKeyRecord).stateForKeyId
        (SenderKeyMessage.new 1 25001 ⟨[1], [2], [3]⟩ 0 3).keyId =
      some ⟨1, ⟨0, [0]⟩, privToPub 3, none, []⟩ ∧
      (SenderKeyMessage.new 1 25001 ⟨[1], [2], [3]⟩ 0 3).verifySignature
        (privToPub 3) = true ∧
      (0 : Nat) + MAX_FORWARD_JUMPS <
        (SenderKeyMessage.new 1 25001 ⟨[1], [2], [3]⟩ 0 3).iteration) ∧
    group_decrypt (SenderKeyMessage.new 1 25001 ⟨[1], [2], [3]⟩ 0 3)
        (some ⟨[⟨1, ⟨0, [0]⟩, privToPub 3, none, []⟩]⟩) =
      (Except.error
        (SignalProtocolError.InvalidMessage
          "message from too far into the future"),
        some ⟨[⟨1, ⟨0, [0]⟩, privToPub 3, none, []⟩]⟩) := by
  exact ⟨⟨by decide, by decide, by decide⟩,
    group_decrypt_too_far_in_future ⟨[⟨1, ⟨0, [0]⟩, privToPub 3, none, []⟩]⟩
      (SenderKeyMessage.new 1 25001 ⟨[1], [2], [3]⟩ 0 3)
      ⟨1, ⟨0, [0]⟩, privToPub 3, none, []⟩
      (by decide) (by decide) (by decide)⟩

/-- Witness for C5: a message whose signature names a different public key
(999) than the matched state's (9): decryption fails with
`SignatureValidationFailed` and the store is unchanged. -/
theorem group_decrypt_signature_validation_failed_witness :
    ((⟨[⟨1, ⟨0, [0]⟩, 9, none, []⟩]⟩ : SenderKeyRecord).stateForKeyId
        (⟨1, 0, ⟨[1], [2], [3]⟩, ⟨999, 1, 0, ⟨[1], [2], [3]⟩, 0⟩⟩ :
          SenderKeyMessage).keyId =
      some ⟨1, ⟨0, [0]⟩, 9, none, []⟩ ∧
      (⟨1, 0, ⟨[1], [2], [3]⟩, ⟨999, 1, 0, ⟨[1], [2], [3]⟩, 0⟩⟩ :
        SenderKeyMessage).verifySignature 9 = false) ∧
    group_decrypt ⟨1, 0, ⟨[1], [2], [3]⟩, ⟨999, 1, 0, ⟨[1], [2], [3]⟩, 0⟩⟩
        (some ⟨[⟨1, ⟨0, [0]⟩, 9, none, []⟩]⟩) =
      (Except.error SignalProtocolError.SignatureValidationFailed,
        some ⟨[⟨1, ⟨0, [0]⟩, 9, none, []⟩]⟩) := by
  exact ⟨⟨by decide, by decide⟩,
    group_decrypt_signature_validation_failed ⟨[⟨1, ⟨0, [0]⟩, 9, none, []⟩]⟩
      ⟨1, 0, ⟨[1], [2], [3]⟩, ⟨999, 1, 0, ⟨[1], [2], [3]⟩, 0⟩⟩
      ⟨1, ⟨0, [0]⟩, 9, none, []⟩ (by decide) (by decide)⟩

/-- Witness for C6: encrypting `[42]` on a state with chain key at iteration
0 and private key 7: the emitted message embeds iteration 0 and the persisted
record's chain key is at iteration 1. -/
theorem group_encrypt_advances_chain_by_one_witness :
    (⟨1, ⟨0, [0]⟩, 8, some 7, []⟩ :
        SenderKeyState).signingKeyPrivate = some 7 ∧
    group_encrypt (some ⟨[⟨1, ⟨0, [0]⟩, 8, some 7, []⟩]⟩) [42] 0 =
      (Except.ok
        (SenderKeyMessage.new 1 0 (aes256CbcEncrypt [42] [3, 1, 0] [4, 1, 0])
          0 7),
        some ⟨[⟨1, ⟨1, [2, 0]⟩, 8, some 7, []⟩]⟩) ∧
    (SenderKeyMessage.new 1 0 (aes256CbcEncrypt [42] [3, 1, 0] [4, 1, 0])
        0 7).iteration = 0 ∧
    (⟨0, [0]⟩ : SenderChainKey).senderMessageKey.iteration = 0 ∧
    (⟨0, [0]⟩ : SenderChainKey).next.iteration = 1 := by
  have h := group_encrypt_advances_chain_by_one
    ⟨1, ⟨0, [0]⟩, 8, some 7, []⟩ [] [42] 0 7 (by decide)
  exact ⟨by decide, h.1, h.2.1, h.2.2.1, h.2.2.2⟩

/-- Witness for C7: encrypting on a state without a private signing key fails
with the signing-key-missing error and the store is unchanged. -/
theorem group_encrypt_signing_key_missing_witness :
    (⟨1, ⟨0, [0]⟩, 9, none, []⟩ :
        SenderKeyState).signingKeyPrivate = none ∧
    group_encrypt (some ⟨[⟨1, ⟨0, [0]⟩, 9, none, []⟩]⟩) [42] 0 =
      (Except.error SignalProtocolError.SenderKeySigningKeyMissing,
        some ⟨[⟨1, ⟨0, [0]⟩, 9, none, []⟩]⟩) := by
  exact ⟨by decide,
    group_encrypt_signing_key_missing ⟨1, ⟨0, [0]⟩, 9, none, []⟩ [] [42] 0
      (by decide)⟩

/-- Witness for C1: encrypting the empty plaintext on a state with private
key 7 (public key `privToPub 7`), then decrypting the produced message
against the same record state, returns the empty plaintext. -/
theorem group_encrypt_decrypt_round_trip_witness :
    ((⟨1, ⟨0, [0]⟩, 8, some 7, []⟩ :
        SenderKeyState).signingKeyPrivate = some 7 ∧
      (⟨1, ⟨0, [0]⟩, 8, some 7, []⟩ :
        SenderKeyState).signingKeyPublic = privToPub 7 ∧
      group_encrypt (some ⟨[⟨1, ⟨0, [0]⟩, 8, some 7, []⟩]⟩) [] 0 =
        (Except.ok ⟨1, 0, ⟨[3, 1, 0], [4, 1, 0], []⟩,
            ⟨8, 1, 0, ⟨[3, 1, 0], [4, 1, 0], []⟩, 0⟩⟩,
          some ⟨[⟨1, ⟨1, [2, 0]⟩, 8, some 7, []⟩]⟩)) ∧
    (group_decrypt ⟨1, 0, ⟨[3, 1, 0], [4, 1, 0], []⟩,
        ⟨8, 1, 0, ⟨[3, 1, 0], [4, 1, 0], []⟩, 0⟩⟩
      (some ⟨[⟨1, ⟨0, [0]⟩, 8, some 7, []⟩]⟩)).1 = Except.ok [] := by
  exact ⟨⟨rfl, rfl, rfl⟩,
    group_encrypt_decrypt_round_trip ⟨1, ⟨0, [0]⟩, 8, some 7, []⟩ [] [] 0 7
      ⟨1, 0, ⟨[3, 1, 0], [4, 1, 0], []⟩,
        ⟨8, 1, 0, ⟨[3, 1, 0], [4, 1, 0], []⟩, 0⟩⟩
      (some ⟨[⟨1, ⟨1, [2, 0]⟩, 8, some 7, []⟩]⟩) rfl rfl rfl⟩

end GroupCipher
